import Mathlib

/-!
Shallow embedding of the DNS-Resolver-GO bulk resolver and proofs of its
specification claims.  Definitions mirror the Go source files: `config.go`
(wildcard detector), `resolver.go` (resolver pool), `main.go` (pipeline,
query retry loop, query-type parsing), `output.go` (record rendering),
`stats.go` (counters) and the rate-limiter file.  Network exchanges,
randomness and the public-suffix lookup are modelled as explicit oracle
parameters; machine integers that stay small are modelled as `Nat`/`Int`.
-/

namespace DNSResolver

/-! ## DNS record model (miekg/dns resource records as used by this repo)

The repository discriminates answer records by dynamic type among the nine
concrete record kinds it renders (`output.go`) plus a catch-all that only
ever uses the record's presentation string `rr.String()`.  We model a
resource record as a tagged variant carrying the owner name, TTL and the
type-specific data; IP addresses are carried as their rendered strings
(`net.IP.String()` output), and the catch-all carries its presentation
string directly. -/

inductive RR where
  | A (owner : String) (ttl : Nat) (ip : String)
  | AAAA (owner : String) (ttl : Nat) (ip : String)
  | CNAME (owner : String) (ttl : Nat) (target : String)
  | MX (owner : String) (ttl : Nat) (preference : Nat) (mx : String)
  | NS (owner : String) (ttl : Nat) (ns : String)
  | TXT (owner : String) (ttl : Nat) (txt : List String)
  | SOA (owner : String) (ttl : Nat) (ns : String) (mbox : String)
      (serial : Nat) (refresh : Nat) (retry : Nat) (expire : Nat) (minttl : Nat)
  | PTR (owner : String) (ttl : Nat) (ptr : String)
  | SRV (owner : String) (ttl : Nat) (priority : Nat) (weight : Nat) (port : Nat)
      (target : String)
  | OTHER (owner : String) (ttl : Nat) (rtype : Nat) (text : String)
deriving DecidableEq, Repr

/-- Owner name of a record (`rr.Header().Name`). -/
def rrOwner : RR → String
  | .A o _ _ => o
  | .AAAA o _ _ => o
  | .CNAME o _ _ => o
  | .MX o _ _ _ => o
  | .NS o _ _ => o
  | .TXT o _ _ => o
  | .SOA o _ _ _ _ _ _ _ _ => o
  | .PTR o _ _ => o
  | .SRV o _ _ _ _ _ => o
  | .OTHER o _ _ _ => o

/-- TTL of a record (`rr.Header().Ttl`). -/
def rrTtl : RR → Nat
  | .A _ t _ => t
  | .AAAA _ t _ => t
  | .CNAME _ t _ => t
  | .MX _ t _ _ => t
  | .NS _ t _ => t
  | .TXT _ t _ => t
  | .SOA _ t _ _ _ _ _ _ _ => t
  | .PTR _ t _ => t
  | .SRV _ t _ _ _ _ => t
  | .OTHER _ t _ _ => t

/-- Type name used in presentation form. -/
def rrTypeName : RR → String
  | .A _ _ _ => "A"
  | .AAAA _ _ _ => "AAAA"
  | .CNAME _ _ _ => "CNAME"
  | .MX _ _ _ _ => "MX"
  | .NS _ _ _ => "NS"
  | .TXT _ _ _ => "TXT"
  | .SOA _ _ _ _ _ _ _ _ _ => "SOA"
  | .PTR _ _ _ => "PTR"
  | .SRV _ _ _ _ _ _ => "SRV"
  | .OTHER _ _ _ _ => "OTHER"

/-- Data portion of a record's presentation form. -/
def rrData : RR → String
  | .A _ _ ip => ip
  | .AAAA _ _ ip => ip
  | .CNAME _ _ target => target
  | .MX _ _ p m => toString p ++ " " ++ m
  | .NS _ _ n => n
  | .TXT _ _ ts => String.intercalate " " ts
  | .SOA _ _ ns mbox serial refresh retry expire minttl =>
      ns ++ " " ++ mbox ++ " " ++ toString serial ++ " " ++ toString refresh ++ " " ++
        toString retry ++ " " ++ toString expire ++ " " ++ toString minttl
  | .PTR _ _ p => p
  | .SRV _ _ pr w po target =>
      toString pr ++ " " ++ toString w ++ " " ++ toString po ++ " " ++ target
  | .OTHER _ _ _ s => s

/-- Model of the miekg/dns presentation form `rr.String()`: owner, TTL,
class, type and data.  For the catch-all variant the stored string is the
whole presentation form. -/
def rrString (rr : RR) : String :=
  match rr with
  | .OTHER _ _ _ s => s
  | _ => rrOwner rr ++ "\t" ++ toString (rrTtl rr) ++ "\tIN\t" ++ rrTypeName rr ++
      "\t" ++ rrData rr

/-- Numeric record-type constants from miekg/dns. -/
def typeA : Nat := 1
def typeNS : Nat := 2
def typeCNAME : Nat := 5
def typeSOA : Nat := 6
def typePTR : Nat := 12
def typeMX : Nat := 15
def typeTXT : Nat := 16
def typeAAAA : Nat := 28
def typeSRV : Nat := 33

/-- A DNS response message; the repository only reads the answer section. -/
structure MsgM where
  answer : List RR
deriving DecidableEq, Repr

/-- Model of `DNSResult` from `config.go`: domain, query type, optional response,
optional error (modelled as its message string) and upstream address. -/
structure DNSResultM where
  domain : String
  rtype : Nat
  response : Option MsgM
  error : Option String
  resolver : String
deriving DecidableEq, Repr

/-- Answer records of a result, empty when the response is `nil`. -/
def answersOf (r : DNSResultM) : List RR :=
  match r.response with
  | none => []
  | some msg => msg.answer

/-! ## Resolver pool (`resolver.go`) -/

/-- A pool endpoint: validated `host:port` address (the prepared UDP client
lives outside the model; exchanges are oracle parameters). -/
structure ResolverM where
  address : String
deriving DecidableEq, Repr

/-- Model of `ResolverPool`: ordered endpoints plus the round-robin cursor.  The Go
code indexes `p.resolvers[p.index]` directly under the invariant
`index < len`; the model totalizes the access with `% len`, which agrees
with the source whenever the invariant holds. -/
structure PoolState where
  resolvers : List ResolverM
  index : Nat
deriving DecidableEq, Repr

/-- Model of `GetResolver` (`resolver.go` lines 120-132): `nil` on an empty pool,
otherwise the endpoint at the cursor, advancing the cursor by
`(index + 1) % len`. -/
def GetResolver (p : PoolState) : Option ResolverM × PoolState :=
  if h : p.resolvers.length = 0 then (none, p)
  else
    (some (p.resolvers.get ⟨p.index % p.resolvers.length,
        Nat.mod_lt _ (Nat.pos_of_ne_zero h)⟩),
      { p with index := (p.index + 1) % p.resolvers.length })

/-- Model of `GetRandomResolver` (`resolver.go` lines 135-145): `nil` on an empty
pool, otherwise a randomly chosen endpoint; the random draw `rand.Intn(len)`
is modelled by `pick % len`. -/
def GetRandomResolver (p : PoolState) (pick : Nat) : Option ResolverM :=
  if h : p.resolvers.length = 0 then none
  else some (p.resolvers.get ⟨pick % p.resolvers.length,
    Nat.mod_lt _ (Nat.pos_of_ne_zero h)⟩)

/-- The pool state after `k` successive `GetResolver` calls. -/
def getResolverIter (p : PoolState) : Nat → PoolState
  | 0 => p
  | k + 1 => (GetResolver (getResolverIter p k)).2

/-! ## Wildcard detector (`config.go`) -/

/-- Model of `sliceEqual` (`config.go` lines 238-250): length check followed by
elementwise string comparison. -/
def sliceEqual : List String → List String → Bool
  | [], [] => true
  | a :: as, b :: bs => a == b && sliceEqual as bs
  | _, _ => false

/-- Answer extraction inside `queryDomain` (`config.go` lines 214-232):
switch on the queried type; for `A`/`AAAA`/`CNAME` only records of the
matching concrete type contribute (their address / target string), any
other queried type renders every record with `rr.String()`. -/
def extractProbeAnswers (qtype : Nat) (answer : List RR) : List String :=
  answer.filterMap (fun rr =>
    if qtype = typeA then
      match rr with
      | .A _ _ ip => some ip
      | _ => none
    else if qtype = typeAAAA then
      match rr with
      | .AAAA _ _ ip => some ip
      | _ => none
    else if qtype = typeCNAME then
      match rr with
      | .CNAME _ _ target => some target
      | _ => none
    else some (rrString rr))

/-- Model of `queryDomain` (`config.go` lines 199-235): `nil` when the randomly
chosen resolver is `nil` or the exchange errs, otherwise the per-type
extracted answers.  The UDP exchange is the oracle `exchange`. -/
def queryDomain (resolver : Option ResolverM)
    (exchange : ResolverM → String → Nat → Option MsgM)
    (domain : String) (qtype : Nat) : List String :=
  match resolver with
  | none => []
  | some r =>
    match exchange r domain qtype with
    | none => []
    | some resp => extractProbeAnswers qtype resp.answer

/-- Model of `generateRandomSubdomains` (`config.go` lines 172-182): `count` names
`label.base`; the random label of the i-th probe is the oracle `labels`. -/
def generateRandomSubdomains (labels : Nat → String) (baseDomain : String)
    (count : Nat) : List String :=
  (List.range count).map (fun i => labels i ++ "." ++ baseDomain)

/-- The probe loop of `detectWildcard` (`config.go` lines 145-153): query
each test subdomain in order, abort with `none` (verdict not-wildcard) as
soon as a probe returns no answers, otherwise collect the answer lists. -/
def collectProbes (probe : String → Nat → List String) (qtype : Nat) :
    List String → Option (List (List String))
  | [] => some []
  | d :: rest =>
    let answers := probe d qtype
    if answers.length = 0 then none
    else
      match collectProbes probe qtype rest with
      | none => none
      | some rs => some (answers :: rs)

/-- Model of `detectWildcard` (`config.go` lines 138-169): probes the given test
subdomains; verdict wildcard iff no probe came back empty, at least two
responses were collected, every response equals the first (raw,
order-sensitive `sliceEqual`) and the first is non-empty. -/
def detectWildcard (probe : String → Nat → List String)
    (testSubdomains : List String) (qtype : Nat) : Bool :=
  match collectProbes probe qtype testSubdomains with
  | none => false
  | some responses =>
    if responses.length < 2 then false
    else
      match responses with
      | [] => false
      | firstResponse :: rest =>
        rest.all (fun r => sliceEqual firstResponse r) && firstResponse.length > 0

/-- Insertion of a string into a sorted list, for the spec-side sorted
normalization; lexicographic order on the character lists. -/
def insertSorted (s : String) : List String → List String
  | [] => [s]
  | x :: xs => if s.data ≤ x.data then s :: x :: xs else x :: insertSorted s xs

/-- Insertion sort on strings, for the spec-side sorted normalization. -/
def sortStrings : List String → List String
  | [] => []
  | x :: xs => insertSorted x (sortStrings xs)

/-- Modelled from the claim's words (not from the source): the detector
with *normalized, per-type sorted* answer sets — probe answer lists are
sorted before the pairwise-equality check.  The source compares raw
unsorted lists; this definition exists to be compared against
`detectWildcard`. -/
def detectWildcardSortedSpec (probe : String → Nat → List String)
    (testSubdomains : List String) (qtype : Nat) : Bool :=
  match collectProbes probe qtype testSubdomains with
  | none => false
  | some responses =>
    if responses.length < 2 then false
    else
      match responses with
      | [] => false
      | firstResponse :: rest =>
        rest.all (fun r => sliceEqual (sortStrings firstResponse) (sortStrings r)) &&
          firstResponse.length > 0

/-- Model of `strings.TrimSuffix(domain, ".")`: drop one trailing dot if present.
(Data-level model of the Go stdlib call.) -/
def trimDot (s : String) : String :=
  if s.data.getLast? = some '.' then String.mk s.data.dropLast else s

/-- Lookup in the wildcard cache (a Go `map[string]bool`, modelled as an
association list; insertion prepends, lookup takes the newest binding). -/
def cacheLookup : List (String × Bool) → String → Option Bool
  | [], _ => none
  | (k, v) :: rest, key => if k = key then some v else cacheLookup rest key

/-- Environment of the wildcard detector: the public-suffix lookup
`publicsuffix.EffectiveTLDPlusOne` (`none` on parse failure), the composed
probe query `queryDomain` and the random-label source. -/
structure DetectorEnv where
  etld : String → Option String
  probe : String → Nat → List String
  labels : Nat → String

/-- Model of `IsWildcard` (`config.go` lines 99-135): returns the verdict and the
updated cache.  Early `false` without cache change when the response is
`nil` or has no answers, or when the eTLD+1 parse fails; cached verdict
when present; otherwise run `detectWildcard` on three random subdomains
and cache the verdict under the base domain. -/
def IsWildcard (env : DetectorEnv) (cache : List (String × Bool))
    (r : DNSResultM) : Bool × List (String × Bool) :=
  match r.response with
  | none => (false, cache)
  | some msg =>
    if msg.answer.length = 0 then (false, cache)
    else
      match env.etld (trimDot r.domain) with
      | none => (false, cache)
      | some baseDomain =>
        match cacheLookup cache baseDomain with
        | some v => (v, cache)
        | none =>
          let isW := detectWildcard env.probe
            (generateRandomSubdomains env.labels baseDomain 3) r.rtype
          (isW, (baseDomain, isW) :: cache)

/-! ## Per-query retry loop (`main.go`, `performDNSQuery`) -/

/-- The attempt loop of `performDNSQuery` (`main.go` lines 312-355),
structured by remaining fuel (`retries + 1` at the top call).  Each
iteration takes a fresh endpoint from the round-robin pool; a `nil`
endpoint records the error "no resolvers available" and retries; a failed
exchange records its error and retries; a successful exchange returns a
success result immediately.  When the fuel runs out the failure result
carries the last recorded error.  Returns the result, the final pool state
and the number of iterations executed.  The exchange oracle is indexed by
the attempt number. -/
def performLoop (exchange : Nat → ResolverM → Except String MsgM)
    (domain : String) (qtype : Nat) :
    Nat → Nat → PoolState → Option String → DNSResultM × PoolState × Nat
  | 0, _, pool, lastErr =>
    (⟨domain, qtype, none, lastErr, ""⟩, pool, 0)
  | fuel + 1, attempt, pool, _ =>
    match GetResolver pool with
    | (none, pool') =>
      let out := performLoop exchange domain qtype fuel (attempt + 1) pool'
        (some "no resolvers available")
      (out.1, out.2.1, out.2.2 + 1)
    | (some r, pool') =>
      match exchange attempt r with
      | .error e =>
        let out := performLoop exchange domain qtype fuel (attempt + 1) pool' (some e)
        (out.1, out.2.1, out.2.2 + 1)
      | .ok resp =>
        (⟨domain, qtype, some resp, none, r.address⟩, pool', 1)

/-- Model of `performDNSQuery` (`main.go` lines 312-355): up to `retries + 1`
attempts starting at attempt 0 with no recorded error. -/
def performDNSQuery (retries : Nat) (exchange : Nat → ResolverM → Except String MsgM)
    (domain : String) (qtype : Nat) (pool : PoolState) : DNSResultM × PoolState × Nat :=
  performLoop exchange domain qtype (retries + 1) 0 pool none

/-! ## Query-type parsing (`main.go`, `parseQueryTypes`) -/

/-- The fixed name table of `parseQueryTypes` (`main.go` lines 232-242),
with the miekg/dns numeric values. -/
def typeMap (t : String) : Option Nat :=
  if t = "A" then some typeA
  else if t = "AAAA" then some typeAAAA
  else if t = "CNAME" then some typeCNAME
  else if t = "MX" then some typeMX
  else if t = "NS" then some typeNS
  else if t = "TXT" then some typeTXT
  else if t = "SOA" then some typeSOA
  else if t = "PTR" then some typePTR
  else if t = "SRV" then some typeSRV
  else none

/-- Digit-list value, most significant first. -/
def digitsToNat (l : List Char) : Nat :=
  l.foldl (fun acc c => acc * 10 + (c.toNat - 48)) 0

/-- Parse a signless digit list, requiring at least one digit. -/
def parseDigits (l : List Char) : Option Nat :=
  if l.isEmpty then none
  else if l.all (fun c => c.isDigit) then some (digitsToNat l)
  else none

/-- Model of `strconv.Atoi`: optional single sign followed by at least one
decimal digit.  (Go's Atoi also errs on 64-bit overflow; such tokens are
far outside the open interval (0, 65536) checked by the caller, so both
reject them and the observable behaviour agrees.) -/
def atoi (s : String) : Option Int :=
  match s.data with
  | [] => none
  | c :: cs =>
    if c = '-' then
      match parseDigits cs with
      | some n => some (-(Int.ofNat n))
      | none => none
    else if c = '+' then
      match parseDigits cs with
      | some n => some (Int.ofNat n)
      | none => none
    else
      match parseDigits (c :: cs) with
      | some n => some (Int.ofNat n)
      | none => none

/-- Split a character list at commas; model of `strings.Split` with the
separator `","` (always yields at least one, possibly empty, token). -/
def splitCommaAux : List Char → List Char → List String
  | [], acc => [String.mk acc.reverse]
  | c :: cs, acc =>
    if c = ',' then String.mk acc.reverse :: splitCommaAux cs []
    else splitCommaAux cs (c :: acc)

/-- Model of `strings.Split(s, ",")`. -/
def splitComma (s : String) : List String :=
  splitCommaAux s.data []

/-- Model of `strings.ToUpper`, character by character. -/
def toUpperGo (s : String) : String :=
  String.mk (s.data.map Char.toUpper)

/-- White-space predicate of `strings.TrimSpace` (the ASCII cases; the Go
function also trims rare Unicode spaces which no claim exercises). -/
def isSpaceChar (c : Char) : Bool :=
  c = ' ' || c = '\t' || c = '\n' || c = '\r' || c = '\x0b' || c = '\x0c'

/-- Model of `strings.TrimSpace`, character by character. -/
def trimSpace (s : String) : String :=
  String.mk (((s.data.dropWhile (fun c => isSpaceChar c)).reverse.dropWhile
    (fun c => isSpaceChar c)).reverse)

/-- The token loop of `parseQueryTypes` (`main.go` lines 247-259): trim the
token, look it up in the name table, otherwise accept a numeric token in
(0, 65536); any other token is the error `unknown query type: <token>`. -/
def parseTokens : List String → Except String (List Nat)
  | [] => .ok []
  | t :: rest =>
    let tok := trimSpace t
    match typeMap tok with
    | some q =>
      match parseTokens rest with
      | .ok l => .ok (q :: l)
      | .error e => .error e
    | none =>
      match atoi tok with
      | some n =>
        if 0 < n ∧ n < 65536 then
          match parseTokens rest with
          | .ok l => .ok (n.toNat :: l)
          | .error e => .error e
        else .error ("unknown query type: " ++ tok)
      | none => .error ("unknown query type: " ++ tok)

/-- Model of `parseQueryTypes` (`main.go` lines 231-266): split the upper-cased
input on commas, parse every token, and default to `[A]` if the (never
actually empty) token list produced no types. -/
def parseQueryTypes (s : String) : Except String (List Nat) :=
  match parseTokens (splitComma (toUpperGo s)) with
  | .error e => .error e
  | .ok l => if l.length = 0 then .ok [typeA] else .ok l

/-- Spec-side token validity, from the claim's words: a token of the fixed
name set, or a decimal integer strictly between 0 and 65536. -/
def goodToken (t : String) : Bool :=
  (typeMap t).isSome ||
    (match atoi t with
     | some n => decide (0 < n) && decide (n < 65536)
     | none => false)

/-- Spec-side token value for valid tokens. -/
def tokenValue (t : String) : Nat :=
  match typeMap t with
  | some q => q
  | none =>
    match atoi t with
    | some n => n.toNat
    | none => 0

/-! ## Rate limiter (`NewRateLimiter` / `SetLimit`) -/

/-- Constant `defaultQPS` from `main.go`. -/
def defaultQPS : Int := 100

/-- Observable construction parameters of the underlying token bucket. -/
structure RateLimiterState where
  limit : Int
  burst : Int
deriving DecidableEq, Repr

/-- Model of `NewRateLimiter`: non-positive qps replaced by the default, burst is
`qps / 10` raised to at least 1. -/
def NewRateLimiter (qps : Int) : RateLimiterState :=
  let q := if qps ≤ 0 then defaultQPS else qps
  let b := q / 10
  let b := if b < 1 then 1 else b
  { limit := q, burst := b }

/-- Model of `SetLimit`: same substitution and burst formula as construction. -/
def SetLimit (_r : RateLimiterState) (qps : Int) : RateLimiterState :=
  let q := if qps ≤ 0 then defaultQPS else qps
  let b := q / 10
  let b := if b < 1 then 1 else b
  { limit := q, burst := b }

/-! ## Statistics and the result processor (`stats.go`, `main.go`) -/

/-- The six counters of `Stats` (`stats.go` lines 13-21).  The Go fields
are `int64` incremented atomically; counts stay far below 2^63 (one per
result), so `Nat` is faithful. -/
structure StatsState where
  total : Nat
  processed : Nat
  successful : Nat
  errors : Nat
  noAnswer : Nat
  wildcards : Nat
deriving DecidableEq, Repr

/-- The zero counters of `NewStats`. -/
def initStats : StatsState :=
  { total := 0, processed := 0, successful := 0, errors := 0, noAnswer := 0,
    wildcards := 0 }

/-- Whether a wildcard detector is configured (`wildcardDetector != nil`),
and with which environment. -/
inductive DetectorConf where
  | off
  | enabled (env : DetectorEnv)

/-- One iteration of `resultProcessor` (`main.go` lines 357-396) on a
received result: increment `processed`; an errored result increments
`errors`; otherwise, when the detector is configured and reports wildcard
(threading the wildcard cache), increment `wildcards`; otherwise a
non-empty answer section increments `successful` and an empty one
`noAnswer`.  Returns the updated counters and cache. -/
def processOne (conf : DetectorConf) (st : StatsState × List (String × Bool))
    (r : DNSResultM) : StatsState × List (String × Bool) :=
  let s := { st.1 with processed := st.1.processed + 1 }
  if r.error.isSome then
    ({ s with errors := s.errors + 1 }, st.2)
  else
    let wild : Bool × List (String × Bool) :=
      match conf with
      | .off => (false, st.2)
      | .enabled env => IsWildcard env st.2 r
    if wild.1 then
      ({ s with wildcards := s.wildcards + 1 }, wild.2)
    else if (answersOf r).length > 0 then
      ({ s with successful := s.successful + 1 }, wild.2)
    else
      ({ s with noAnswer := s.noAnswer + 1 }, wild.2)

/-- The result processor over a sequence of received results, from the
zero counters and an empty wildcard cache. -/
def processAll (conf : DetectorConf) (results : List DNSResultM) :
    StatsState × List (String × Bool) :=
  results.foldl (processOne conf) (initStats, [])

/-- The counter invariant of the result processor. -/
def statsInvariant (s : StatsState) : Prop :=
  s.successful + s.errors + s.noAnswer + s.wildcards = s.processed

/-! ## Pipeline completion (`processDNSQueries`, `main.go` lines 216-228)

An abstract interleaving model of the run after ingestion of `total`
domains with `numTypes` requested record types.  A `deliver` step is a
worker result reaching the processor (`processed` grows toward
`total * numTypes`); the `closeRes` step is the coordinator's wait loop
observing `processed >= total` — the condition the source actually polls —
and closing the result channel, which ends the run with the counters as
they stand. -/

structure PipeState where
  processed : Nat
  resClosed : Bool
deriving DecidableEq, Repr

/-- Interleaving steps of the pipeline after ingestion completed. -/
inductive PipeStep (total numTypes : Nat) : PipeState → PipeState → Prop where
  | deliver (s : PipeState) : s.resClosed = false → s.processed < total * numTypes →
      PipeStep total numTypes s ⟨s.processed + 1, false⟩
  | closeRes (s : PipeState) : s.resClosed = false → total ≤ s.processed →
      PipeStep total numTypes s ⟨s.processed, true⟩

/-- Reachable pipeline states, from zero processed results and an open
result channel. -/
inductive PipeReach (total numTypes : Nat) : PipeState → Prop where
  | init : PipeReach total numTypes ⟨0, false⟩
  | step {s s' : PipeState} : PipeReach total numTypes s →
      PipeStep total numTypes s s' → PipeReach total numTypes s'

/-! ## Output rendering (`output.go`) -/

/-- Model of `OutputRecord` (`output.go` lines 25-32). -/
structure OutputRecord where
  domain : String
  type : String
  record : String
  value : String
  ttl : Nat
  resolver : String
deriving DecidableEq, Repr

/-- Model of `dns.TypeToString` restricted to the nine types this repository names;
other numeric types are rendered by their own table entries in the
library, which no claim touches, so they map to a catch-all string. -/
def typeToString (t : Nat) : String :=
  if t = typeA then "A"
  else if t = typeAAAA then "AAAA"
  else if t = typeCNAME then "CNAME"
  else if t = typeMX then "MX"
  else if t = typeNS then "NS"
  else if t = typeTXT then "TXT"
  else if t = typeSOA then "SOA"
  else if t = typePTR then "PTR"
  else if t = typeSRV then "SRV"
  else "TYPE" ++ toString t

/-- The value column of `extractRecords` (`output.go` lines 102-126): a
type switch over the concrete record type; the default branch uses the
record's presentation form. -/
def renderValue : RR → String
  | .A _ _ ip => ip
  | .AAAA _ _ ip => ip
  | .CNAME _ _ target => target
  | .MX _ _ p m => toString p ++ " " ++ m
  | .NS _ _ n => n
  | .TXT _ _ ts => String.intercalate " " ts
  | .SOA _ _ ns mbox serial refresh retry expire minttl =>
      ns ++ " " ++ mbox ++ " " ++ toString serial ++ " " ++ toString refresh ++ " " ++
        toString retry ++ " " ++ toString expire ++ " " ++ toString minttl
  | .PTR _ _ p => p
  | .SRV _ _ pr w po target =>
      toString pr ++ " " ++ toString w ++ " " ++ toString po ++ " " ++ target
  | rr => rrString rr

/-- Model of `extractRecords` (`output.go` lines 90-132): one output record per
answer record, carrying the queried domain, queried type name, owner name,
rendered value, TTL and upstream address. -/
def extractRecords (res : DNSResultM) : List OutputRecord :=
  (answersOf res).map (fun rr =>
    { domain := res.domain, type := typeToString res.rtype, record := rrOwner rr,
      value := renderValue rr, ttl := rrTtl rr, resolver := res.resolver })

/-- Model of `writeSimple` (`output.go` lines 135-140): one tab-separated line
`domain, type_name, value, ttl` per record. -/
def writeSimple (records : List OutputRecord) : List String :=
  records.map (fun r =>
    r.domain ++ "\t" ++ r.type ++ "\t" ++ r.value ++ "\t" ++ toString r.ttl)

/-! ## Concrete instances used by counterexamples and witnesses -/

/-- The pool endpoint served to the i-th round-robin attempt starting from
cursor `idx`: position `(idx + i) mod count`. -/
def resolverAt (rs : List ResolverM) (hn : 0 < rs.length) (idx i : Nat) : ResolverM :=
  rs.get ⟨(idx + i) % rs.length, Nat.mod_lt _ hn⟩

/-- Probe oracle whose second probe returns the same two addresses as the
first but in the opposite order. -/
def probeCex (d : String) (_qtype : Nat) : List String :=
  if d = "bbbbbbbbbbbb.example.com" then ["5.6.7.8", "1.2.3.4"]
  else ["1.2.3.4", "5.6.7.8"]

/-- Fixed random labels for the three probes. -/
def labelsCex : Nat → String
  | 0 => "aaaaaaaaaaaa"
  | 1 => "bbbbbbbbbbbb"
  | _ => "cccccccccccc"

/-- An exchange oracle that always fails (drops every packet). -/
def exchNone : ResolverM → String → Nat → Option MsgM := fun _ _ _ => none

/-- Detector environment over an *empty* resolver pool: every probe's
random endpoint is `none`, so `queryDomain` returns no answers. -/
def envPoolEmpty : DetectorEnv :=
  { etld := fun _ => some "example.com",
    probe := fun d q => queryDomain (GetRandomResolver ⟨[], 0⟩ 0) exchNone d q,
    labels := labelsCex }

/-- Detector environment whose public-suffix lookup always fails. -/
def envNoEtld : DetectorEnv :=
  { etld := fun _ => none,
    probe := fun d q => queryDomain (GetRandomResolver ⟨[], 0⟩ 0) exchNone d q,
    labels := labelsCex }

/-- A positive `A` result for `sub.example.com`. -/
def resultPositiveA : DNSResultM :=
  { domain := "sub.example.com", rtype := typeA,
    response := some ⟨[.A "sub.example.com." 60 "10.0.0.1"]⟩,
    error := none, resolver := "8.8.8.8:53" }

/-- A `NOERROR` result with an empty answer section. -/
def resultEmptyAns : DNSResultM :=
  { domain := "empty.example.com", rtype := typeA,
    response := some ⟨[]⟩, error := none, resolver := "8.8.8.8:53" }

/-- A two-endpoint pool for the retry/round-robin witnesses. -/
def rsW : List ResolverM := [⟨"8.8.8.8:53"⟩, ⟨"1.1.1.1:53"⟩]

/-- The response returned by the witness exchange on its second attempt. -/
def msgW : MsgM := ⟨[.A "example.com." 300 "93.184.216.34"]⟩

/-- Witness exchange: attempt 0 times out, attempt 1 succeeds. -/
def exW : Nat → ResolverM → Except String MsgM := fun attempt _ =>
  if attempt = 0 then .error "i/o timeout" else .ok msgW

/-- A successful result carrying one record of every concrete type, for the
rendering witness. -/
def resultRender : DNSResultM :=
  { domain := "example.com", rtype := typeMX,
    response := some ⟨[
      .MX "example.com." 3600 10 "mail.example.com.",
      .A "example.com." 300 "93.184.216.34",
      .AAAA "example.com." 300 "2606:2800:220:1:248:1893:25c8:1946",
      .CNAME "www.example.com." 300 "example.com.",
      .NS "example.com." 86400 "ns1.example.com.",
      .TXT "example.com." 300 ["v=spf1", "-all"],
      .SOA "example.com." 3600 "ns1.example.com." "hostmaster.example.com."
        2024010101 7200 900 1209600 86400,
      .PTR "34.216.184.93.in-addr.arpa." 300 "example.com.",
      .SRV "_sip._tcp.example.com." 300 10 60 5060 "sip.example.com.",
      .OTHER "example.com." 300 257 "example.com.\t300\tIN\tCAA\t0 issue ca.example.net"]⟩,
    error := none, resolver := "9.9.9.9:53" }

/-! ## Helper lemmas -/

/-- Lemma: `sliceEqual` decides list equality. -/
theorem sliceEqual_iff : ∀ a b : List String, sliceEqual a b = true ↔ a = b := by
  intro a
  induction a with
  | nil => intro b; cases b <;> simp [sliceEqual]
  | cons x xs ih =>
    intro b
    cases b with
    | nil => simp [sliceEqual]
    | cons y ys => simp [sliceEqual, ih ys]

/-- Lemma: `GetResolver` on a non-empty pool: endpoint at the cursor, cursor
advanced modulo the pool size. -/
theorem GetResolver_pos (rs : List ResolverM) (idx : Nat) (h : 0 < rs.length) :
    GetResolver ⟨rs, idx⟩ =
      (some (rs.get ⟨idx % rs.length, Nat.mod_lt _ h⟩), ⟨rs, (idx + 1) % rs.length⟩) := by
  unfold GetResolver
  rw [dif_neg (Nat.pos_iff_ne_zero.mp h)]

/-- A detector whose every probe returns no answers reports not-wildcard
on any non-empty test list. -/
theorem detectWildcard_probe_empty (probe : String → Nat → List String)
    (qtype : Nat) (d : String) (rest : List String)
    (hp : probe d qtype = []) :
    detectWildcard probe (d :: rest) qtype = false := by
  unfold detectWildcard collectProbes
  simp [hp]

/-! ## Claim theorems -/

/-- C8: for every qps input, the rate limiter is constructed as a token
bucket with rate qps and burst capacity max(1, qps/10), where a
non-positive qps is first replaced by the default value 100; `SetLimit`
applies the same substitution and burst formula. -/
theorem rateLimiter_qps_burst :
    ∀ qps : Int,
      NewRateLimiter qps =
        { limit := if qps ≤ 0 then 100 else qps,
          burst := max 1 ((if qps ≤ 0 then 100 else qps) / 10) } ∧
      ∀ r : RateLimiterState, SetLimit r qps = NewRateLimiter qps := by
  intro qps
  have hmax : ∀ b : Int, (if b < 1 then (1 : Int) else b) = max 1 b := by
    intro b
    rcases lt_or_le b 1 with h | h
    · rw [if_pos h, max_eq_left h.le]
    · rw [if_neg (not_lt.mpr h), max_eq_right h]
  constructor
  · simp only [NewRateLimiter, defaultQPS]
    rw [hmax]
  · intro r
    rfl

/-- Witness for C8 at qps = 0 and qps = 7. -/
theorem rateLimiter_qps_burst_witness :
    NewRateLimiter 0 = { limit := 100, burst := 10 } ∧
    SetLimit (NewRateLimiter 7) 0 = NewRateLimiter 0 := by
  have h := rateLimiter_qps_burst 0
  refine ⟨?_, h.2 (NewRateLimiter 7)⟩
  rw [h.1]
  norm_num

/-- C2 (code bug evidence): with one ingested domain and two requested
record types, the pipeline model — whose close step fires as soon as
`processed >= total`, exactly the condition `processDNSQueries` polls —
reaches a terminal (result-channel-closed) state with only one processed
result, while the claim demands `1 * 2` processed results. -/
theorem pipeline_close_before_all_types_processed :
    PipeReach 1 2 ⟨1, true⟩ ∧ (1 : Nat) ≠ 1 * 2 := by
  constructor
  · exact PipeReach.step
      (PipeReach.step PipeReach.init
        (PipeStep.deliver ⟨0, false⟩ rfl (by norm_num)))
      (PipeStep.closeRes ⟨1, false⟩ rfl (by norm_num))
  · norm_num

/-- C10: a result with a nil response or an empty answer section gets the
not-wildcard verdict with the cache untouched, for every environment
(hence without consulting any probe); and the result processor counts such
an error-free result as no-answer — never as wildcard-suppressed —
whether or not a detector is configured. -/
theorem noAnswer_never_wildcard :
    (∀ (env : DetectorEnv) (cache : List (String × Bool)) (r : DNSResultM),
      answersOf r = [] → IsWildcard env cache r = (false, cache)) ∧
    (∀ (conf : DetectorConf) (s : StatsState) (cache : List (String × Bool))
      (r : DNSResultM), r.error = none → answersOf r = [] →
      processOne conf (s, cache) r =
        ({ s with processed := s.processed + 1, noAnswer := s.noAnswer + 1 }, cache)) := by
  have h1 : ∀ (env : DetectorEnv) (cache : List (String × Bool)) (r : DNSResultM),
      answersOf r = [] → IsWildcard env cache r = (false, cache) := by
    intro env cache r h
    unfold IsWildcard
    cases hr : r.response with
    | none => rfl
    | some msg =>
      have ha : msg.answer = [] := by simpa [answersOf, hr] using h
      simp [ha]
  refine ⟨h1, ?_⟩
  intro conf s cache r he h
  unfold processOne
  rw [he]
  cases conf with
  | off => simp [h]
  | enabled env => simp [h1 env cache r h, h]

/-- Witness for C10: an empty-answer result under a configured detector. -/
theorem noAnswer_never_wildcard_witness :
    IsWildcard envPoolEmpty [] resultEmptyAns = (false, []) ∧
    processOne (.enabled envPoolEmpty) (initStats, []) resultEmptyAns =
      ({ initStats with processed := 1, noAnswer := 1 }, []) := by
  refine ⟨noAnswer_never_wildcard.1 envPoolEmpty [] resultEmptyAns rfl, ?_⟩
  have h := noAnswer_never_wildcard.2 (.enabled envPoolEmpty) initStats [] resultEmptyAns rfl rfl
  simpa using h

/-- C4 counterexample: over an empty resolver pool every probe's random
endpoint is `none`; the detector then returns not-wildcard BUT, contrary
to the claim, `IsWildcard` does cache that verdict for the base domain. -/
theorem isWildcard_empty_pool_caches_cex :
    (IsWildcard envPoolEmpty [] resultPositiveA).1 = false ∧
    (IsWildcard envPoolEmpty [] resultPositiveA).2 = [("example.com", false)] ∧
    GetRandomResolver ⟨[], 0⟩ 0 = none := by
  refine ⟨rfl, rfl, rfl⟩

/-- C4 (amended): when the eTLD+1 lookup fails, `IsWildcard` returns
not-wildcard and the cache is untouched; when the randomly chosen endpoint
is `none`, `queryDomain` returns no answers; and a result whose (uncached)
base-domain probes all return no answers gets the not-wildcard verdict
which IS cached under the base domain. -/
theorem isWildcard_failure_paths :
    (∀ (env : DetectorEnv) (cache : List (String × Bool)) (r : DNSResultM),
      env.etld (trimDot r.domain) = none → IsWildcard env cache r = (false, cache)) ∧
    (∀ (exch : ResolverM → String → Nat → Option MsgM) (d : String) (t : Nat),
      queryDomain none exch d t = []) ∧
    (∀ (env : DetectorEnv) (cache : List (String × Bool)) (r : DNSResultM)
      (msg : MsgM) (baseDomain : String),
      r.response = some msg → msg.answer ≠ [] →
      env.etld (trimDot r.domain) = some baseDomain →
      cacheLookup cache baseDomain = none →
      (∀ d q, env.probe d q = []) →
      IsWildcard env cache r = (false, (baseDomain, false) :: cache)) := by
  refine ⟨?_, ?_, ?_⟩
  · intro env cache r h
    unfold IsWildcard
    cases hr : r.response with
    | none => rfl
    | some msg =>
      by_cases hl : msg.answer.length = 0
      · simp [hl]
      · simp [hl, h]
  · intro exch d t
    rfl
  · intro env cache r msg baseDomain hr hne he hc hp
    have hl : ¬ msg.answer.length = 0 := by
      simpa [List.length_eq_zero] using hne
    have hdw : detectWildcard env.probe
        (generateRandomSubdomains env.labels baseDomain 3) r.rtype = false := by
      have hrange : List.range 3 = [0, 1, 2] := rfl
      unfold generateRandomSubdomains
      rw [hrange]
      simp only [List.map_cons, List.map_nil]
      exact detectWildcard_probe_empty env.probe r.rtype _ _ (hp _ _)
    simp [IsWildcard, hr, hl, he, hc, hdw]

/-- Witness for C4: each failure path at a concrete input. -/
theorem isWildcard_failure_paths_witness :
    IsWildcard envNoEtld [] resultPositiveA = (false, []) ∧
    queryDomain none exchNone "probe.example.com" typeA = [] ∧
    IsWildcard envPoolEmpty [("other.org", true)] resultPositiveA =
      (false, [("example.com", false), ("other.org", true)]) := by
  refine ⟨isWildcard_failure_paths.1 envNoEtld [] resultPositiveA rfl,
    isWildcard_failure_paths.2.1 exchNone "probe.example.com" typeA,
    isWildcard_failure_paths.2.2 envPoolEmpty [("other.org", true)] resultPositiveA
      ⟨[.A "sub.example.com." 60 "10.0.0.1"]⟩ "example.com" rfl
      (by decide) rfl (by decide) (fun d q => rfl)⟩

/-- C1 counterexample: the second probe answers with the same two
addresses as the first and third, only in reverse order.  Under the
claim's sorted normalization the three answer sets are equal and non-empty
(verdict wildcard), but the code compares the raw unsorted lists and
verdicts not-wildcard. -/
theorem detectWildcard_sorted_cex :
    detectWildcard probeCex (generateRandomSubdomains labelsCex "example.com" 3)
      typeA = false ∧
    detectWildcardSortedSpec probeCex (generateRandomSubdomains labelsCex "example.com" 3)
      typeA = true := by
  constructor <;> rfl

/-- C1 (amended): for three probes over a base domain, the code's verdict
is wildcard exactly when every probe's raw answer list is non-empty and
the three raw (unsorted, order-sensitive) answer lists are pairwise
equal. -/
theorem detectWildcard_unsorted_characterization :
    ∀ (probe : String → Nat → List String) (labels : Nat → String)
      (baseDomain : String) (qtype : Nat),
      detectWildcard probe (generateRandomSubdomains labels baseDomain 3) qtype = true ↔
        (probe (labels 0 ++ "." ++ baseDomain) qtype ≠ [] ∧
         probe (labels 1 ++ "." ++ baseDomain) qtype ≠ [] ∧
         probe (labels 2 ++ "." ++ baseDomain) qtype ≠ [] ∧
         probe (labels 0 ++ "." ++ baseDomain) qtype =
           probe (labels 1 ++ "." ++ baseDomain) qtype ∧
         probe (labels 1 ++ "." ++ baseDomain) qtype =
           probe (labels 2 ++ "." ++ baseDomain) qtype) := by
  intro probe labels baseDomain qtype
  have hrange : List.range 3 = [0, 1, 2] := rfl
  unfold generateRandomSubdomains
  rw [hrange]
  simp only [List.map_cons, List.map_nil]
  by_cases h0 : probe (labels 0 ++ "." ++ baseDomain) qtype = []
  · simp [detectWildcard, collectProbes, h0]
  by_cases h1 : probe (labels 1 ++ "." ++ baseDomain) qtype = []
  · simp [detectWildcard, collectProbes, h0, h1,
      List.length_eq_zero, -ne_eq]
  by_cases h2 : probe (labels 2 ++ "." ++ baseDomain) qtype = []
  · simp [detectWildcard, collectProbes, h0, h1, h2, List.length_eq_zero]
  · have hl0 : ¬ (probe (labels 0 ++ "." ++ baseDomain) qtype).length = 0 := by
      simpa [List.length_eq_zero] using h0
    have hl1 : ¬ (probe (labels 1 ++ "." ++ baseDomain) qtype).length = 0 := by
      simpa [List.length_eq_zero] using h1
    have hl2 : ¬ (probe (labels 2 ++ "." ++ baseDomain) qtype).length = 0 := by
      simpa [List.length_eq_zero] using h2
    simp only [detectWildcard, collectProbes, hl0, hl1, hl2, if_neg,
      ite_false, List.length_cons, List.all_cons, List.all_nil]
    constructor
    · intro hw
      obtain ⟨⟨he1, he2⟩, -⟩ :
          (sliceEqual (probe (labels 0 ++ "." ++ baseDomain) qtype)
              (probe (labels 1 ++ "." ++ baseDomain) qtype) = true ∧
            sliceEqual (probe (labels 0 ++ "." ++ baseDomain) qtype)
              (probe (labels 2 ++ "." ++ baseDomain) qtype) = true) ∧
            0 < (probe (labels 0 ++ "." ++ baseDomain) qtype).length := by
        simpa using hw
      have e1 := (sliceEqual_iff _ _).mp he1
      have e2 := (sliceEqual_iff _ _).mp he2
      exact ⟨h0, h1, h2, e1, e1 ▸ e2⟩
    · rintro ⟨-, -, -, e1, e2⟩
      have he1 : sliceEqual (probe (labels 0 ++ "." ++ baseDomain) qtype)
          (probe (labels 1 ++ "." ++ baseDomain) qtype) = true :=
        (sliceEqual_iff _ _).mpr e1
      have he2 : sliceEqual (probe (labels 0 ++ "." ++ baseDomain) qtype)
          (probe (labels 2 ++ "." ++ baseDomain) qtype) = true :=
        (sliceEqual_iff _ _).mpr (e1.trans e2)
      simp [he1, he2, Nat.pos_of_ne_zero (fun hz => h0 (List.length_eq_zero.mp hz))]

/-- Witness for C1: three identical non-empty probe answers give verdict
wildcard. -/
theorem detectWildcard_unsorted_characterization_witness :
    detectWildcard (fun _ _ => ["10.0.0.1"])
      (generateRandomSubdomains labelsCex "wild.test" 3) typeA = true :=
  (detectWildcard_unsorted_characterization (fun _ _ => ["10.0.0.1"]) labelsCex
    "wild.test" typeA).mpr ⟨by decide, by decide, by decide, rfl, rfl⟩

/-- Per-result counter facts of the result processor: `processed` grows by
exactly one, the four category counters together grow by exactly one, and
each single category grows by at most one. -/
theorem processOne_counts (conf : DetectorConf)
    (st : StatsState × List (String × Bool)) (r : DNSResultM) :
    (processOne conf st r).1.processed = st.1.processed + 1 ∧
    (processOne conf st r).1.successful + (processOne conf st r).1.errors +
      (processOne conf st r).1.noAnswer + (processOne conf st r).1.wildcards =
      st.1.successful + st.1.errors + st.1.noAnswer + st.1.wildcards + 1 ∧
    st.1.successful ≤ (processOne conf st r).1.successful ∧
    (processOne conf st r).1.successful ≤ st.1.successful + 1 ∧
    st.1.errors ≤ (processOne conf st r).1.errors ∧
    (processOne conf st r).1.errors ≤ st.1.errors + 1 ∧
    st.1.noAnswer ≤ (processOne conf st r).1.noAnswer ∧
    (processOne conf st r).1.noAnswer ≤ st.1.noAnswer + 1 ∧
    st.1.wildcards ≤ (processOne conf st r).1.wildcards ∧
    (processOne conf st r).1.wildcards ≤ st.1.wildcards + 1 := by
  unfold processOne
  by_cases he : r.error.isSome = true
  · simp [he]
    omega
  · rw [if_neg he]
    cases conf with
    | off =>
      by_cases ha : (answersOf r).length > 0 <;> simp [ha] <;> omega
    | enabled env =>
      rcases hiw : IsWildcard env st.2 r with ⟨b, c⟩
      cases b
      · by_cases ha : (answersOf r).length > 0 <;> simp [hiw, ha] <;> omega
      · simp [hiw]
        omega

/-- Folding the result processor over any result list adds the list's
length to `processed` and to the sum of the four category counters. -/
theorem processAll_counts_aux (conf : DetectorConf) :
    ∀ (results : List DNSResultM) (st : StatsState × List (String × Bool)),
    (results.foldl (processOne conf) st).1.processed =
      st.1.processed + results.length ∧
    (results.foldl (processOne conf) st).1.successful +
      (results.foldl (processOne conf) st).1.errors +
      (results.foldl (processOne conf) st).1.noAnswer +
      (results.foldl (processOne conf) st).1.wildcards =
      st.1.successful + st.1.errors + st.1.noAnswer + st.1.wildcards +
        results.length := by
  intro results
  induction results with
  | nil => intro st; simp
  | cons r rest ih =>
    intro st
    rw [List.foldl_cons, List.length_cons]
    have h1 := processOne_counts conf st r
    have h2 := ih (processOne conf st r)
    omega

/-- C3: after processing any sequence of results from the initial (zero)
counters — hence at every point of a run — the category counters sum to
`processed`; moreover each received result bumps `processed` by exactly
one and the four category counters by exactly one in total, each single
category by at most one. -/
theorem resultProcessor_counter_invariant :
    (∀ (conf : DetectorConf) (results : List DNSResultM),
      statsInvariant (processAll conf results).1 ∧
      (processAll conf results).1.processed = results.length) ∧
    (∀ (conf : DetectorConf) (st : StatsState × List (String × Bool))
      (r : DNSResultM),
      (processOne conf st r).1.processed = st.1.processed + 1 ∧
      (processOne conf st r).1.successful + (processOne conf st r).1.errors +
        (processOne conf st r).1.noAnswer + (processOne conf st r).1.wildcards =
        st.1.successful + st.1.errors + st.1.noAnswer + st.1.wildcards + 1 ∧
      st.1.successful ≤ (processOne conf st r).1.successful ∧
      (processOne conf st r).1.successful ≤ st.1.successful + 1 ∧
      st.1.errors ≤ (processOne conf st r).1.errors ∧
      (processOne conf st r).1.errors ≤ st.1.errors + 1 ∧
      st.1.noAnswer ≤ (processOne conf st r).1.noAnswer ∧
      (processOne conf st r).1.noAnswer ≤ st.1.noAnswer + 1 ∧
      st.1.wildcards ≤ (processOne conf st r).1.wildcards ∧
      (processOne conf st r).1.wildcards ≤ st.1.wildcards + 1) := by
  constructor
  · intro conf results
    have h := processAll_counts_aux conf results (initStats, [])
    unfold processAll statsInvariant
    have e1 : (initStats, ([] : List (String × Bool))).1.processed = 0 := rfl
    have e2 : (initStats, ([] : List (String × Bool))).1.successful = 0 := rfl
    have e3 : (initStats, ([] : List (String × Bool))).1.errors = 0 := rfl
    have e4 : (initStats, ([] : List (String × Bool))).1.noAnswer = 0 := rfl
    have e5 : (initStats, ([] : List (String × Bool))).1.wildcards = 0 := rfl
    rw [e1, e2, e3, e4, e5] at h
    omega
  · exact processOne_counts

/-- Witness for C3 on a concrete two-result run under a configured
detector. -/
theorem resultProcessor_counter_invariant_witness :
    statsInvariant (processAll (.enabled envPoolEmpty)
      [resultPositiveA, resultEmptyAns]).1 ∧
    (processAll (.enabled envPoolEmpty) [resultPositiveA, resultEmptyAns]).1.processed = 2 :=
  resultProcessor_counter_invariant.1 (.enabled envPoolEmpty)
    [resultPositiveA, resultEmptyAns]

/-- Iterating `GetResolver` advances the cursor `k` steps modulo the pool
size, leaving the endpoint list unchanged. -/
theorem getResolverIter_eq (rs : List ResolverM) (hn : 0 < rs.length) :
    ∀ (k idx : Nat), idx < rs.length →
      getResolverIter ⟨rs, idx⟩ k = ⟨rs, (idx + k) % rs.length⟩ := by
  intro k
  induction k with
  | zero =>
    intro idx hi
    simp [getResolverIter, Nat.mod_eq_of_lt hi]
  | succ k ih =>
    intro idx hi
    show (GetResolver (getResolverIter ⟨rs, idx⟩ k)).2 = _
    rw [ih idx hi, GetResolver_pos rs _ hn]
    show (⟨rs, ((idx + k) % rs.length + 1) % rs.length⟩ : PoolState) = _
    rw [Nat.mod_add_mod, Nat.add_assoc]

/-- C6: starting from a cursor within bounds, after `k` round-robin calls
the cursor equals `(initial + k) mod count` with the endpoint list intact,
the cursor stays in `[0, count)`, and the next (that is, the `(k+1)`-th)
call returns the endpoint at position `(initial + k) mod count`. -/
theorem getResolver_round_robin (rs : List ResolverM) (idx k : Nat)
    (hn : 0 < rs.length) (hi : idx < rs.length) :
    getResolverIter ⟨rs, idx⟩ k = ⟨rs, (idx + k) % rs.length⟩ ∧
    (idx + k) % rs.length < rs.length ∧
    (GetResolver (getResolverIter ⟨rs, idx⟩ k)).1 = some (resolverAt rs hn idx k) := by
  refine ⟨getResolverIter_eq rs hn k idx hi, Nat.mod_lt _ hn, ?_⟩
  rw [getResolverIter_eq rs hn k idx hi, GetResolver_pos rs _ hn]
  have hmm : (idx + k) % rs.length % rs.length = (idx + k) % rs.length :=
    Nat.mod_eq_of_lt (Nat.mod_lt _ hn)
  simp only [resolverAt, hmm]

/-- Witness for C6: five calls on a two-endpoint pool land on cursor 1 and
the sixth call returns the second endpoint. -/
theorem getResolver_round_robin_witness :
    getResolverIter ⟨rsW, 0⟩ 5 = ⟨rsW, 1⟩ ∧
    (GetResolver (getResolverIter ⟨rsW, 0⟩ 5)).1 = some ⟨"1.1.1.1:53"⟩ := by
  have h := getResolver_round_robin rsW 0 5 (by decide) (by decide)
  exact ⟨h.1, h.2.2⟩

/-- Bound on the iterations of the retry loop: never more than the fuel. -/
theorem performLoop_used_le (exchange : Nat → ResolverM → Except String MsgM)
    (domain : String) (qtype : Nat) :
    ∀ (fuel attempt : Nat) (pool : PoolState) (lastErr : Option String),
      (performLoop exchange domain qtype fuel attempt pool lastErr).2.2 ≤ fuel := by
  intro fuel
  induction fuel with
  | zero => intro attempt pool lastErr; simp [performLoop]
  | succ fuel ih =>
    intro attempt pool lastErr
    rw [performLoop]
    rcases hr : GetResolver pool with ⟨ro, pool'⟩
    simp only [hr]
    cases ro with
    | none =>
      simpa using Nat.succ_le_succ (ih (attempt + 1) pool' (some "no resolvers available"))
    | some r =>
      cases hx : exchange attempt r with
      | error e =>
        simp only [hx]
        simpa using Nat.succ_le_succ (ih (attempt + 1) pool' (some e))
      | ok resp =>
        simp only [hx]
        simp

/-- The retry loop when every attempt it can make fails: it uses all its
fuel, returns the failure result carrying the error of the last attempt,
and leaves the cursor advanced once per attempt. -/
theorem performLoop_all_fail (exchange : Nat → ResolverM → Except String MsgM)
    (domain : String) (qtype : Nat) (err : Nat → String) (rs : List ResolverM)
    (hn : 0 < rs.length) :
    ∀ (fuel a idx : Nat) (lastErr : Option String), idx < rs.length →
      (∀ j, j < fuel → exchange (a + j) (resolverAt rs hn idx j) = .error (err (a + j))) →
      performLoop exchange domain qtype fuel a ⟨rs, idx⟩ lastErr =
        (⟨domain, qtype, none, if fuel = 0 then lastErr else some (err (a + fuel - 1)), ""⟩,
         ⟨rs, (idx + fuel) % rs.length⟩, fuel) := by
  intro fuel
  induction fuel with
  | zero =>
    intro a idx lastErr hi _
    simp [performLoop, Nat.mod_eq_of_lt hi]
  | succ fuel ih =>
    intro a idx lastErr hi hx
    rw [performLoop]
    simp only [GetResolver_pos rs idx hn]
    have h0 : exchange a (rs.get ⟨idx % rs.length, Nat.mod_lt _ hn⟩) = .error (err a) := by
      have := hx 0 (Nat.succ_pos fuel)
      simpa [resolverAt] using this
    simp only [h0]
    have hshift : ∀ j : Nat, resolverAt rs hn ((idx + 1) % rs.length) j =
        resolverAt rs hn idx (j + 1) := by
      intro j
      simp only [resolverAt]
      congr 1
      apply Fin.ext
      show ((idx + 1) % rs.length + j) % rs.length = (idx + (j + 1)) % rs.length
      rw [Nat.mod_add_mod]
      congr 1
      omega
    have hrec := ih (a + 1) ((idx + 1) % rs.length) (some (err a)) (Nat.mod_lt _ hn) ?hall
    case hall =>
      intro j hj
      rw [hshift j]
      have hadd : a + 1 + j = a + (j + 1) := by omega
      rw [hadd]
      exact hx (j + 1) (Nat.succ_lt_succ hj)
    simp only [hrec]
    have hif : (if fuel = 0 then some (err a) else some (err (a + 1 + fuel - 1))) =
        some (err (a + (fuel + 1) - 1)) := by
      by_cases hf : fuel = 0
      · subst hf; simp
      · rw [if_neg hf]
        congr 2
        omega
    have hidx : ((idx + 1) % rs.length + fuel) % rs.length =
        (idx + (fuel + 1)) % rs.length := by
      rw [Nat.mod_add_mod]
      congr 1
      omega
    simp only [hif, hidx]
    rfl

/-- The retry loop when the first success happens on attempt `k` (counted
from the current attempt): it stops there, returning the success result
built from that attempt's endpoint and response. -/
theorem performLoop_success (exchange : Nat → ResolverM → Except String MsgM)
    (domain : String) (qtype : Nat) (err : Nat → String) (m : MsgM)
    (rs : List ResolverM) (hn : 0 < rs.length) :
    ∀ (fuel k a idx : Nat) (lastErr : Option String), idx < rs.length → k < fuel →
      (∀ j, j < k → exchange (a + j) (resolverAt rs hn idx j) = .error (err (a + j))) →
      exchange (a + k) (resolverAt rs hn idx k) = .ok m →
      performLoop exchange domain qtype fuel a ⟨rs, idx⟩ lastErr =
        (⟨domain, qtype, some m, none, (resolverAt rs hn idx k).address⟩,
         ⟨rs, (idx + k + 1) % rs.length⟩, k + 1) := by
  intro fuel
  induction fuel with
  | zero =>
    intro k a idx lastErr hi hk
    exact absurd hk (Nat.not_lt_zero k)
  | succ fuel ih =>
    intro k a idx lastErr hi hk hfail hok
    rw [performLoop]
    simp only [GetResolver_pos rs idx hn]
    cases k with
    | zero =>
      have h0 : exchange a (rs.get ⟨idx % rs.length, Nat.mod_lt _ hn⟩) = .ok m := by
        simpa [resolverAt] using hok
      simp only [h0]
      simp only [resolverAt]
      rfl
    | succ k =>
      have h0 : exchange a (rs.get ⟨idx % rs.length, Nat.mod_lt _ hn⟩) = .error (err a) := by
        have := hfail 0 (Nat.succ_pos k)
        simpa [resolverAt] using this
      simp only [h0]
      have hshift : ∀ j : Nat, resolverAt rs hn ((idx + 1) % rs.length) j =
          resolverAt rs hn idx (j + 1) := by
        intro j
        simp only [resolverAt]
        congr 1
        apply Fin.ext
        show ((idx + 1) % rs.length + j) % rs.length = (idx + (j + 1)) % rs.length
        rw [Nat.mod_add_mod]
        congr 1
        omega
      have hrec := ih k (a + 1) ((idx + 1) % rs.length) (some (err a))
        (Nat.mod_lt _ hn) (Nat.lt_of_succ_lt_succ hk) ?hfail2 ?hok2
      case hfail2 =>
        intro j hj
        rw [hshift j]
        have := hfail (j + 1) (Nat.succ_lt_succ hj)
        have hadd : a + 1 + j = a + (j + 1) := by omega
        rw [hadd]
        exact this
      case hok2 =>
        rw [hshift k]
        have hadd : a + 1 + k = a + (k + 1) := by omega
        rw [hadd]
        exact hok
      simp only [hrec]
      have haddr : resolverAt rs hn ((idx + 1) % rs.length) k =
        resolverAt rs hn idx (k + 1) := hshift k
      have hidx : ((idx + 1) % rs.length + k + 1) % rs.length =
          (idx + (k + 1) + 1) % rs.length := by
        rw [Nat.add_assoc, Nat.mod_add_mod]
        congr 1
        omega
      rw [haddr, hidx]

/-- C5: on a non-empty pool, `performDNSQuery` makes at most `retries + 1`
attempts; each attempt takes the next round-robin endpoint (position
`(cursor + attempt) mod count`); if every attempt's exchange fails the
result is a failure carrying the last attempt's error; and the first
attempt whose exchange succeeds ends the loop with a success result built
from that attempt's endpoint and response. -/
theorem performDNSQuery_retry_policy (exchange : Nat → ResolverM → Except String MsgM)
    (domain : String) (qtype : Nat) (rs : List ResolverM) (idx retries : Nat)
    (err : Nat → String) (m : MsgM) (hn : 0 < rs.length) (hi : idx < rs.length) :
    (performDNSQuery retries exchange domain qtype ⟨rs, idx⟩).2.2 ≤ retries + 1 ∧
    ((∀ i, i ≤ retries → exchange i (resolverAt rs hn idx i) = .error (err i)) →
      performDNSQuery retries exchange domain qtype ⟨rs, idx⟩ =
        (⟨domain, qtype, none, some (err retries), ""⟩,
         ⟨rs, (idx + (retries + 1)) % rs.length⟩, retries + 1)) ∧
    (∀ k, k ≤ retries →
      (∀ j, j < k → exchange j (resolverAt rs hn idx j) = .error (err j)) →
      exchange k (resolverAt rs hn idx k) = .ok m →
      performDNSQuery retries exchange domain qtype ⟨rs, idx⟩ =
        (⟨domain, qtype, some m, none, (resolverAt rs hn idx k).address⟩,
         ⟨rs, (idx + k + 1) % rs.length⟩, k + 1)) := by
  refine ⟨performLoop_used_le exchange domain qtype (retries + 1) 0 ⟨rs, idx⟩ none,
    ?_, ?_⟩
  · intro hall
    have h := performLoop_all_fail exchange domain qtype err rs hn (retries + 1) 0 idx
      none hi ?hfail
    case hfail =>
      intro j hj
      simpa using hall j (Nat.lt_succ_iff.mp hj)
    unfold performDNSQuery
    rw [h]
    norm_num
  · intro k hk hfail hok
    have h := performLoop_success exchange domain qtype err m rs hn (retries + 1) k 0 idx
      none hi (Nat.lt_succ_of_le hk) ?hf ?ho
    case hf =>
      intro j hj
      simpa using hfail j hj
    case ho => simpa using hok
    unfold performDNSQuery
    rw [h]

/-- Witness for C5: retries = 1, first attempt times out, second attempt
succeeds against the second pool endpoint; two attempts used. -/
theorem performDNSQuery_retry_policy_witness :
    performDNSQuery 1 exW "example.com" typeA ⟨rsW, 0⟩ =
      (⟨"example.com", typeA, some msgW, none, "1.1.1.1:53"⟩, ⟨rsW, 0⟩, 2) := by
  have h := (performDNSQuery_retry_policy exW "example.com" typeA rsW 0 1
      (fun _ => "i/o timeout") msgW (by decide) (by decide)).2.2 1 (le_refl 1) ?hf ?ho
  case hf =>
    intro j hj
    have hj0 : j = 0 := by omega
    subst hj0
    rfl
  case ho => rfl
  rw [h]
  rfl

/-- Token-level behaviour of the parse loop: it succeeds, producing the
per-token values, exactly when every trimmed token is valid; otherwise it
errs. -/
theorem parseTokens_spec : ∀ ts : List String,
    (ts.all (fun t => goodToken (trimSpace t)) = true ∧
      parseTokens ts = .ok (ts.map (fun t => tokenValue (trimSpace t)))) ∨
    (ts.all (fun t => goodToken (trimSpace t)) = false ∧
      ∃ e, parseTokens ts = .error e) := by
  intro ts
  induction ts with
  | nil => left; exact ⟨rfl, rfl⟩
  | cons t rest ih =>
    by_cases hg : goodToken (trimSpace t) = true
    · have hval : ∀ l, parseTokens rest = .ok l →
          parseTokens (t :: rest) = .ok (tokenValue (trimSpace t) :: l) := by
        intro l hl
        rw [parseTokens]
        cases htm : typeMap (trimSpace t) with
        | some q =>
          simp only [htm, hl, tokenValue]
        | none =>
          simp only [goodToken, htm, Option.isSome_none, Bool.false_or] at hg
          cases hat : atoi (trimSpace t) with
          | none => rw [hat] at hg; exact absurd hg (by simp)
          | some n =>
            rw [hat] at hg
            have hr : 0 < n ∧ n < 65536 := by
              constructor
              · exact of_decide_eq_true (Bool.and_elim_left hg)
              · exact of_decide_eq_true (Bool.and_elim_right hg)
            simp only [htm, hat, if_pos hr, hl, tokenValue]
      have herrp : (∃ e, parseTokens rest = .error e) →
          ∃ e, parseTokens (t :: rest) = .error e := by
        rintro ⟨e, he⟩
        rw [parseTokens]
        cases htm : typeMap (trimSpace t) with
        | some q =>
          exact ⟨e, by simp only [htm, he]⟩
        | none =>
          simp only [goodToken, htm, Option.isSome_none, Bool.false_or] at hg
          cases hat : atoi (trimSpace t) with
          | none => rw [hat] at hg; exact absurd hg (by simp)
          | some n =>
            rw [hat] at hg
            have hr : 0 < n ∧ n < 65536 := by
              constructor
              · exact of_decide_eq_true (Bool.and_elim_left hg)
              · exact of_decide_eq_true (Bool.and_elim_right hg)
            exact ⟨e, by simp only [hat, if_pos hr, he]⟩
      rcases ih with ⟨hall, hok⟩ | ⟨hall, he⟩
      · left
        exact ⟨by simp [List.all_cons, hg, hall], by simpa using hval _ hok⟩
      · right
        exact ⟨by simp [List.all_cons, hall], herrp he⟩
    · right
      have hg' : goodToken (trimSpace t) = false := by
        cases hgb : goodToken (trimSpace t)
        · rfl
        · exact absurd hgb hg
      refine ⟨by simp [List.all_cons, hg'], ?_⟩
      rw [parseTokens]
      cases htm : typeMap (trimSpace t) with
      | some q =>
        have : goodToken (trimSpace t) = true := by
          simp [goodToken, htm]
        exact absurd this hg
      | none =>
        cases hat : atoi (trimSpace t) with
        | none => exact ⟨"unknown query type: " ++ trimSpace t, by simp only [htm, hat]⟩
        | some n =>
          have hnr : ¬ (0 < n ∧ n < 65536) := by
            intro hr
            have : goodToken (trimSpace t) = true := by
              simp [goodToken, htm, hat, hr.1, hr.2]
            exact absurd this hg
          exact ⟨"unknown query type: " ++ trimSpace t,
            by simp only [htm, hat, if_neg hnr]⟩

/-- C7 counterexample: on the empty input string `parseQueryTypes` returns
an error — splitting produces one empty token, which is rejected — rather
than the claimed default `[A]`; the `[A]` fallback branch is dead code. -/
theorem parseQueryTypes_empty_string_cex :
    parseQueryTypes "" = .error "unknown query type: " ∧
    parseQueryTypes "" ≠ .ok [typeA] := by
  constructor
  · rfl
  · intro h
    rw [show parseQueryTypes "" = .error "unknown query type: " from rfl] at h
    exact Except.noConfusion h

/-- C7 (amended): `parseQueryTypes` succeeds exactly when every trimmed
comma-separated token of the upper-cased input is a known type name or a
decimal integer strictly between 0 and 65536, in which case it returns
the per-token values; any other token (in particular the empty token an
empty input yields) produces an error, and the `[A]` default for an empty
token list is unreachable because splitting always yields a token. -/
theorem parseQueryTypes_token_characterization :
    ∀ (s : String) (l : List Nat),
      parseQueryTypes s = .ok l ↔
        ((splitComma (toUpperGo s)).all (fun t => goodToken (trimSpace t)) = true ∧
         l = if splitComma (toUpperGo s) = [] then [typeA]
             else (splitComma (toUpperGo s)).map (fun t => tokenValue (trimSpace t))) := by
  intro s l
  unfold parseQueryTypes
  rcases parseTokens_spec (splitComma (toUpperGo s)) with ⟨hall, hok⟩ | ⟨hall, e, herr⟩
  · rw [hok]
    cases hts : splitComma (toUpperGo s) with
    | nil =>
      rw [hts] at hall
      simp [hall, eq_comm]
    | cons t rest =>
      rw [hts] at hall
      simp only [hts, List.map_cons, List.length_cons]
      rw [if_neg (by simp)]
      rw [if_neg (by simp : ¬ (t :: rest) = [])]
      simp [hall, eq_comm]
  · rw [herr]
    simp [hall]

/-- Witness for C7: a mixed-case list with spaces and a numeric token. -/
theorem parseQueryTypes_token_characterization_witness :
    parseQueryTypes "a, aaaa ,15" = .ok [typeA, typeAAAA, 15] :=
  (parseQueryTypes_token_characterization "a, aaaa ,15" [typeA, typeAAAA, 15]).mpr
    ⟨by decide, by decide⟩

/-- C9: `extractRecords` yields one output record per answer record,
carrying the queried domain, queried type name, owner, TTL and upstream
address, with the value rendered by the per-type table — A/AAAA address
string, CNAME/NS/PTR target name, MX "pref exchange", TXT strings joined
by single spaces, SOA seven space-separated fields, SRV
"prio weight port target", anything else its presentation form — and
`writeSimple` emits one tab-separated `domain, type, value, ttl` line per
record. -/
theorem extractRecords_rendering :
    ∀ (res : DNSResultM) (i : Nat) (h1 : i < (extractRecords res).length)
      (h2 : i < (answersOf res).length),
      (extractRecords res).length = (answersOf res).length ∧
      ((extractRecords res).get ⟨i, h1⟩).domain = res.domain ∧
      ((extractRecords res).get ⟨i, h1⟩).type = typeToString res.rtype ∧
      ((extractRecords res).get ⟨i, h1⟩).record = rrOwner ((answersOf res).get ⟨i, h2⟩) ∧
      ((extractRecords res).get ⟨i, h1⟩).ttl = rrTtl ((answersOf res).get ⟨i, h2⟩) ∧
      ((extractRecords res).get ⟨i, h1⟩).resolver = res.resolver ∧
      ((extractRecords res).get ⟨i, h1⟩).value =
        (match (answersOf res).get ⟨i, h2⟩ with
         | .A _ _ ip => ip
         | .AAAA _ _ ip => ip
         | .CNAME _ _ target => target
         | .MX _ _ p m => toString p ++ " " ++ m
         | .NS _ _ n => n
         | .TXT _ _ ts => String.intercalate " " ts
         | .SOA _ _ ns mbox serial refresh retry expire minttl =>
             ns ++ " " ++ mbox ++ " " ++ toString serial ++ " " ++ toString refresh ++
               " " ++ toString retry ++ " " ++ toString expire ++ " " ++ toString minttl
         | .PTR _ _ p => p
         | .SRV _ _ pr w po target =>
             toString pr ++ " " ++ toString w ++ " " ++ toString po ++ " " ++ target
         | .OTHER _ _ _ s => s) ∧
      writeSimple (extractRecords res) = (extractRecords res).map (fun r =>
        r.domain ++ "\t" ++ r.type ++ "\t" ++ r.value ++ "\t" ++ toString r.ttl) := by
  intro res i h1 h2
  have hget : (extractRecords res).get ⟨i, h1⟩ =
      { domain := res.domain, type := typeToString res.rtype,
        record := rrOwner ((answersOf res).get ⟨i, h2⟩),
        value := renderValue ((answersOf res).get ⟨i, h2⟩),
        ttl := rrTtl ((answersOf res).get ⟨i, h2⟩), resolver := res.resolver } := by
    simp [extractRecords, List.get_eq_getElem, List.getElem_map]
  refine ⟨by simp [extractRecords], ?_, ?_, ?_, ?_, ?_, ?_, rfl⟩ <;> rw [hget]
  rcases hrr : (answersOf res).get ⟨i, h2⟩ with
    _ | _ | _ | _ | _ | _ | _ | _ | _ | _ <;> rfl

/-- Witness for C9 on a result holding one record of every type: the MX
record at index 0 renders as "pref exchange". -/
theorem extractRecords_rendering_witness :
    (extractRecords resultRender).length = (answersOf resultRender).length ∧
    ((extractRecords resultRender).get ⟨0, by decide⟩).value = "10 mail.example.com." ∧
    writeSimple (extractRecords resultRender) = (extractRecords resultRender).map (fun r =>
      r.domain ++ "\t" ++ r.type ++ "\t" ++ r.value ++ "\t" ++ toString r.ttl) := by
  have h := extractRecords_rendering resultRender 0 (by decide) (by decide)
  exact ⟨h.1, (h.2.2.2.2.2.2.1).trans (by rfl), h.2.2.2.2.2.2.2⟩

end DNSResolver
